import Mathlib

/-!
Verification development for the heightmap terrain generators of
`ci_group/revolve2/ci_group/terrains.py`.

The Python source is a stateless function library: two grid primitives
(`rugged_heightmap`, `bowl_heightmap`) and six composite builders
(`flat`, `flat_rugged`, `mixed_terrain`, `mixed_flat_rugged`,
`mixed_flat_rugged_one_thirds`, `crater`).  We embed the numeric layer over
`ℚ`.  The external coherent-noise function `pnoise2` (from the third-party
`noise` library, not part of this repository) is abstracted as an arbitrary
fixed function `pnoise2 : ℚ → ℚ → ℕ → ℚ` threaded through the definitions:
every property claimed of the generators is parametric in it.

A numpy 2-d array of shape `(rows, cols)` is embedded as a `Heightmap`:
the shape together with the cell function `(row, col) ↦ value`.
`np.fromfunction(f, (n0, n1))` becomes `⟨n0, n1, f⟩`.
-/

namespace Revolve2

/-- Python `int(...)` applied to a real (here rational) value: truncation
toward zero, i.e. floor for non-negative arguments and ceiling for negative
ones. -/
def pyInt (q : ℚ) : ℤ := if 0 ≤ q then ⌊q⌋ else ⌈q⌉

/-- A 2-dimensional float array: shape `(rows, cols)` plus the cell values.
Cell `(row, col)` of `np.fromfunction(lambda y, x: ..., (n0, n1))` is the
lambda evaluated at `y = row`, `x = col`. -/
structure Heightmap where
  rows : ℕ
  cols : ℕ
  val : ℕ → ℕ → ℚ

/-- numpy `heights * c` (elementwise, as in `heights *= c`). -/
def Heightmap.scale (h : Heightmap) (c : ℚ) : Heightmap :=
  ⟨h.rows, h.cols, fun i j => h.val i j * c⟩

/-- numpy `heights[:, :m] = 0`: zero every column of index `< m`. -/
def Heightmap.zeroCols (h : Heightmap) (m : ℕ) : Heightmap :=
  ⟨h.rows, h.cols, fun i j => if j < m then 0 else h.val i j⟩

/-- numpy `np.zeros_like(h)`. -/
def Heightmap.zerosLike (h : Heightmap) : Heightmap :=
  ⟨h.rows, h.cols, fun _ _ => 0⟩

/-- numpy `c * h` (scalar times array). -/
def Heightmap.smul (c : ℚ) (h : Heightmap) : Heightmap :=
  ⟨h.rows, h.cols, fun i j => c * h.val i j⟩

/-- numpy `a + b` for two arrays of equal shape (the only use in the source). -/
def Heightmap.add (a b : Heightmap) : Heightmap :=
  ⟨a.rows, a.cols, fun i j => a.val i j + b.val i j⟩

/-- numpy `h / c` (array divided by scalar). -/
def Heightmap.divScalar (h : Heightmap) (c : ℚ) : Heightmap :=
  ⟨h.rows, h.cols, fun i j => h.val i j / c⟩

/-- numpy `np.zeros(num_edges)`. -/
def npZeros (num_edges : ℕ × ℕ) : Heightmap :=
  ⟨num_edges.1, num_edges.2, fun _ _ => 0⟩

/-- RGBA color, as in `revolve2.simulation.scene.Color`. -/
structure Color where
  r : ℕ
  g : ℕ
  b : ℕ
  a : ℕ

/-- The enum `revolve2.simulation.scene.geometry.textures.MapType` (only `MAP2D` is
used by the source). -/
inductive MapType where
  | map2d
  | cube
  | skybox

/-- The `Checker` texture configuration of
`revolve2.simulators.mujoco_simulator.textures` as instantiated by
`mixed_terrain`. -/
structure Checker where
  primary_color : Color
  secondary_color : Color
  map_type : MapType

/-- Placement (`Pose`) of a geometry; the source only ever sets the position
(`Pose()` defaults to the origin). -/
structure Pose where
  pos : ℚ × ℚ × ℚ

/-- A static geometry entry: `GeometryPlane(pose, mass, size)` or
`GeometryHeightmap(pose, mass, size, base_thickness, heights, texture)`. -/
inductive Geometry where
  | plane (pose : Pose) (mass : ℚ) (size : ℚ × ℚ)
  | hmap (pose : Pose) (mass : ℚ) (size : ℚ × ℚ × ℚ) (base_thickness : ℚ)
      (heights : Heightmap) (texture : Option Checker)

/-- The mass field of a geometry entry. -/
def Geometry.mass : Geometry → ℚ
  | .plane _ m _ => m
  | .hmap _ m _ _ _ _ => m

/-- The z component of the declared size (the vertical extent `max_height`
of a heightmap geometry); a plane has no vertical extent. -/
def Geometry.sizeZ : Geometry → ℚ
  | .plane _ _ _ => 0
  | .hmap _ _ s _ _ _ => s.2.2

/-- The `base_thickness` field of a heightmap geometry. -/
def Geometry.baseThickness : Geometry → ℚ
  | .plane _ _ _ => 0
  | .hmap _ _ _ bt _ _ => bt

/-- The value of the heights array at `(row, col)`; a plane carries no
heights array. -/
def Geometry.heightAt : Geometry → ℕ → ℕ → ℚ
  | .plane _ _ _, _, _ => 0
  | .hmap _ _ _ _ h _, i, j => h.val i j

/-- The shape of the heights array of a heightmap geometry. -/
def Geometry.heightsShape : Geometry → ℕ × ℕ
  | .plane _ _ _ => (0, 0)
  | .hmap _ _ _ _ h _ => (h.rows, h.cols)

/-- A `Terrain`: a bag of static geometry entries. -/
structure Terrain where
  static_geometry : List Geometry

/-- The first geometry entry of a terrain (every builder returns a
non-empty list). -/
def Terrain.headGeo (t : Terrain) : Geometry :=
  t.static_geometry.headD (.plane ⟨(0, 0, 0)⟩ 0 (0, 0))

/-- The list of masses of the geometry entries. -/
def Terrain.masses (t : Terrain) : List ℚ :=
  t.static_geometry.map Geometry.mass

/-- The list of heights-array shapes of the geometry entries. -/
def Terrain.heightsShapes (t : Terrain) : List (ℕ × ℕ) :=
  t.static_geometry.map Geometry.heightsShape

/-- Each composite builder computes
`num_edges = (int(100 * size[0] * g), int(100 * size[1] * g))` with
`NUM_EDGES = 100`; the identical computation is inlined in each of
`flat_rugged`, `mixed_terrain`, `mixed_flat_rugged`,
`mixed_flat_rugged_one_thirds` and `crater`. -/
def derivedNumEdges (size : ℚ × ℚ) (granularity_multiplier : ℚ) : ℕ × ℕ :=
  ((pyInt (100 * size.1 * granularity_multiplier)).toNat,
   (pyInt (100 * size.2 * granularity_multiplier)).toNat)

/-- The squared distance of grid cell `(y, x)` from the grid center after
mapping both axes to `[-1, 1]`: the expression
`(x / num_edges[0] * 2.0 - 1.0) ** 2 + (y / num_edges[1] * 2.0 - 1.0) ** 2`
appearing (twice) in `bowl_heightmap`. -/
def bowl_radius_sq (num_edges : ℕ × ℕ) (y x : ℕ) : ℚ :=
  ((x : ℚ) / (num_edges.1 : ℚ) * 2 - 1) ^ 2
    + ((y : ℚ) / (num_edges.2 : ℚ) * 2 - 1) ^ 2

section
variable (pnoise2 : ℚ → ℚ → ℕ → ℚ)

/-- Function `rugged_heightmap(size, num_edges, density)`:
`np.fromfunction(lambda y, x: pnoise2(x / num_edges[0] * C1 * size[0] * density,
y / num_edges[1] * C1 * size[1] * density, OCTAVE), num_edges)` with
`OCTAVE = 10` and `C1 = 4.0`. -/
def rugged_heightmap (size : ℚ × ℚ) (num_edges : ℕ × ℕ) (density : ℚ) :
    Heightmap :=
  ⟨num_edges.1, num_edges.2, fun y x =>
    pnoise2 ((x : ℚ) / (num_edges.1 : ℚ) * 4 * size.1 * density)
      ((y : ℚ) / (num_edges.2 : ℚ) * 4 * size.2 * density) 10⟩

/-- Function `bowl_heightmap(num_edges)`: each cell holds the squared normalized
radius when inside the unit disk and `0.0` otherwise.  The source guards
with `math.sqrt(d) <= 1.0`; since `d ≥ 0` this is equivalent to `d ≤ 1`
(theorem `sqrt_le_one_iff_of_nonneg` below), which is the decidable form
used here. -/
def bowl_heightmap (num_edges : ℕ × ℕ) : Heightmap :=
  ⟨num_edges.1, num_edges.2, fun y x =>
    if bowl_radius_sq num_edges y x ≤ 1 then bowl_radius_sq num_edges y x
    else 0⟩

/-- Builder `flat(size)`: a single zero-mass plane. -/
def flat (size : ℚ × ℚ) : Terrain :=
  ⟨[.plane ⟨(0, 0, 0)⟩ 0 size]⟩

/-- Builder `flat_rugged(size, ruggedness, granularity_multiplier)`: rugged noise at
`density=1.0`, scaled by `ruggedness` (`heights *= ruggedness`), wrapped in
one heightmap geometry with `max_height = ruggedness` and
`base_thickness = 0.1`. -/
def flat_rugged (size : ℚ × ℚ) (ruggedness granularity_multiplier : ℚ) :
    Terrain :=
  let num_edges := derivedNumEdges size granularity_multiplier
  let heights := (rugged_heightmap pnoise2 size num_edges 1).scale ruggedness
  ⟨[.hmap ⟨(0, 0, 0)⟩ 0 (size.1, size.2, ruggedness) (1/10) heights none]⟩

/-- The checker texture built by `mixed_terrain`. -/
def checkerTexture : Checker :=
  ⟨⟨170, 170, 180, 255⟩, ⟨150, 150, 150, 255⟩, .map2d⟩

/-- Builder `mixed_terrain(size, ruggedness, granularity_multiplier)`: three
side-by-side heightmap geometries at x offsets `0`, `2*size[0]`,
`4*size[0]`: flat, flat with checker texture, and rugged scaled by
`ruggedness` (the in-place `rugged_heights *= ruggedness` happens after
`flat_heights = np.zeros_like(rugged_heights)` is taken). -/
def mixed_terrain (size : ℚ × ℚ) (ruggedness granularity_multiplier : ℚ) :
    Terrain :=
  let num_edges := derivedNumEdges size granularity_multiplier
  let rugged_heights := rugged_heightmap pnoise2 size num_edges 1
  let flat_heights := rugged_heights.zerosLike
  let scaled := rugged_heights.scale ruggedness
  ⟨[.hmap ⟨(0, 0, 0)⟩ 0 (size.1, size.2, ruggedness) (1/10) flat_heights none,
    .hmap ⟨(2 * size.1, 0, 0)⟩ 0 (size.1, size.2, ruggedness) (1/10)
      flat_heights (some checkerTexture),
    .hmap ⟨(4 * size.1, 0, 0)⟩ 0 (size.1, size.2, ruggedness) (1/10)
      scaled none]⟩

/-- Builder `mixed_flat_rugged(size, ruggedness, granularity_multiplier)`: rugged
noise scaled by `ruggedness`, then `heights[:, :midpoint] = 0` with
`midpoint = num_edges[0] // 2`. -/
def mixed_flat_rugged (size : ℚ × ℚ) (ruggedness granularity_multiplier : ℚ) :
    Terrain :=
  let num_edges := derivedNumEdges size granularity_multiplier
  let heights :=
    ((rugged_heightmap pnoise2 size num_edges 1).scale ruggedness).zeroCols
      (num_edges.1 / 2)
  ⟨[.hmap ⟨(0, 0, 0)⟩ 0 (size.1, size.2, ruggedness) (1/10) heights none]⟩

/-- Builder `mixed_flat_rugged_one_thirds(size, ruggedness, granularity_multiplier)`:
as above but `heights[:, :rugged_start] = 0` with
`rugged_start = num_edges[0] * 2 // 3`. -/
def mixed_flat_rugged_one_thirds (size : ℚ × ℚ)
    (ruggedness granularity_multiplier : ℚ) : Terrain :=
  let num_edges := derivedNumEdges size granularity_multiplier
  let heights :=
    ((rugged_heightmap pnoise2 size num_edges 1).scale ruggedness).zeroCols
      (num_edges.1 * 2 / 3)
  ⟨[.hmap ⟨(0, 0, 0)⟩ 0 (size.1, size.2, ruggedness) (1/10) heights none]⟩

/-- Builder `crater(size, ruggedness, curviness, granularity_multiplier)`: with
`max_height = ruggedness + curviness`, if `max_height == 0.0` the heightmap
is `np.zeros(num_edges)` and `max_height` is forced to `1.0`; otherwise the
heightmap is
`(ruggedness * rugged + curviness * bowl) / (ruggedness + curviness)` with
the rugged primitive sampled at `density=1.5`.  Either way
`base_thickness = 0.1 + ruggedness`. -/
def crater (size : ℚ × ℚ) (ruggedness curviness granularity_multiplier : ℚ) :
    Terrain :=
  let num_edges := derivedNumEdges size granularity_multiplier
  let rugged := rugged_heightmap pnoise2 size num_edges (3/2)
  let bowl := bowl_heightmap num_edges
  if ruggedness + curviness = 0 then
    ⟨[.hmap ⟨(0, 0, 0)⟩ 0 (size.1, size.2, 1) (1/10 + ruggedness)
        (npZeros num_edges) none]⟩
  else
    ⟨[.hmap ⟨(0, 0, 0)⟩ 0 (size.1, size.2, ruggedness + curviness)
        (1/10 + ruggedness)
        (((Heightmap.smul ruggedness rugged).add
            (Heightmap.smul curviness bowl)).divScalar
          (ruggedness + curviness)) none]⟩

end

end Revolve2

namespace Revolve2

/-! Helper lemmas -/

/-- For a non-negative rational `q`, the float guard `math.sqrt(q) <= 1.0`
of `bowl_heightmap` is equivalent to `q ≤ 1`. -/
theorem sqrt_le_one_iff_of_nonneg (q : ℚ) (hq : 0 ≤ q) :
    Real.sqrt (q : ℝ) ≤ 1 ↔ q ≤ 1 := by
  rw [show (1:ℝ) = Real.sqrt 1 by simp]
  rw [Real.sqrt_le_sqrt_iff (by positivity)]
  exact_mod_cast Iff.rfl

/-- For a non-negative rational `q`, the Euclidean norm `sqrt q` exceeds 1
exactly when `q` does. -/
theorem one_lt_sqrt_iff_of_nonneg (q : ℚ) (hq : 0 ≤ q) :
    1 < Real.sqrt (q : ℝ) ↔ 1 < q := by
  rw [show (1:ℝ) = Real.sqrt 1 by simp]
  rw [Real.sqrt_lt_sqrt_iff (by norm_num)]
  exact_mod_cast Iff.rfl

/-- The squared normalized radius is a sum of squares, hence non-negative. -/
theorem bowl_radius_sq_nonneg (num_edges : ℕ × ℕ) (y x : ℕ) :
    0 ≤ bowl_radius_sq num_edges y x :=
  add_nonneg (sq_nonneg _) (sq_nonneg _)

/-! Claim theorems -/

/-- C1: for every world size, every resolution `(nx, ny)` with
both axes positive, and every density, `rugged_heightmap` returns a grid of
shape exactly `(nx, ny)` whose cell at `(row, col)` is the noise function
`pnoise2` with octave count 10 evaluated at
`(col/nx * 4.0 * sx * density, row/ny * 4.0 * sy * density)`. -/
theorem rugged_heightmap_spec (pnoise2 : ℚ → ℚ → ℕ → ℚ) (sx sy density : ℚ)
    (nx ny : ℕ) (hnx : 0 < nx) (hny : 0 < ny) :
    (rugged_heightmap pnoise2 (sx, sy) (nx, ny) density).rows = nx ∧
    (rugged_heightmap pnoise2 (sx, sy) (nx, ny) density).cols = ny ∧
    ∀ row col : ℕ,
      (rugged_heightmap pnoise2 (sx, sy) (nx, ny) density).val row col =
        pnoise2 ((col : ℚ) / (nx : ℚ) * 4 * sx * density)
          ((row : ℚ) / (ny : ℚ) * 4 * sy * density) 10 :=
  ⟨rfl, rfl, fun _ _ => rfl⟩

/-- Witness for C1 at `pnoise2 = const 0`, `nx = ny = 1`. -/
theorem rugged_heightmap_spec_witness :
    ((0:ℕ) < 1 ∧ (0:ℕ) < 1) ∧
    ((rugged_heightmap (fun _ _ _ => (0:ℚ)) ((1:ℚ), 1) (1, 1) 1).rows = 1 ∧
     (rugged_heightmap (fun _ _ _ => (0:ℚ)) ((1:ℚ), 1) (1, 1) 1).cols = 1 ∧
     ∀ row col : ℕ,
       (rugged_heightmap (fun _ _ _ => (0:ℚ)) ((1:ℚ), 1) (1, 1) 1).val row col =
         (fun _ _ _ => (0:ℚ)) ((col : ℚ) / ((1:ℕ) : ℚ) * 4 * 1 * 1)
           ((row : ℚ) / ((1:ℕ) : ℚ) * 4 * 1 * 1) 10) :=
  ⟨⟨Nat.one_pos, Nat.one_pos⟩,
   rugged_heightmap_spec (fun _ _ _ => 0) 1 1 1 1 1 Nat.one_pos Nat.one_pos⟩

/-- C2: for every resolution `(nx, ny)` with positive axes, every cell of
`bowl_heightmap` whose normalized coordinates have Euclidean norm strictly
greater than 1 is exactly 0, every other cell (ties at norm 1 included via
the `<=` guard) equals the squared norm, and all values lie in `[0, 1]`. -/
theorem bowl_heightmap_spec (nx ny row col : ℕ) (hnx : 0 < nx)
    (hny : 0 < ny) :
    (bowl_heightmap (nx, ny)).rows = nx ∧
    (bowl_heightmap (nx, ny)).cols = ny ∧
    (1 < Real.sqrt ((bowl_radius_sq (nx, ny) row col : ℚ) : ℝ) →
      (bowl_heightmap (nx, ny)).val row col = 0) ∧
    (Real.sqrt ((bowl_radius_sq (nx, ny) row col : ℚ) : ℝ) ≤ 1 →
      (bowl_heightmap (nx, ny)).val row col =
        bowl_radius_sq (nx, ny) row col) ∧
    0 ≤ (bowl_heightmap (nx, ny)).val row col ∧
    (bowl_heightmap (nx, ny)).val row col ≤ 1 := by
  have hd : 0 ≤ bowl_radius_sq (nx, ny) row col :=
    bowl_radius_sq_nonneg (nx, ny) row col
  refine ⟨rfl, rfl, ?_, ?_, ?_, ?_⟩
  · intro h1
    have hgt : 1 < bowl_radius_sq (nx, ny) row col :=
      (one_lt_sqrt_iff_of_nonneg _ hd).mp h1
    show (if bowl_radius_sq (nx, ny) row col ≤ 1 then
        bowl_radius_sq (nx, ny) row col else 0) = 0
    rw [if_neg (not_le.mpr hgt)]
  · intro h2
    have hle : bowl_radius_sq (nx, ny) row col ≤ 1 :=
      (sqrt_le_one_iff_of_nonneg _ hd).mp h2
    show (if bowl_radius_sq (nx, ny) row col ≤ 1 then
        bowl_radius_sq (nx, ny) row col else 0) =
      bowl_radius_sq (nx, ny) row col
    rw [if_pos hle]
  · show 0 ≤ (if bowl_radius_sq (nx, ny) row col ≤ 1 then
        bowl_radius_sq (nx, ny) row col else 0)
    split
    · exact hd
    · exact le_refl 0
  · show (if bowl_radius_sq (nx, ny) row col ≤ 1 then
        bowl_radius_sq (nx, ny) row col else 0) ≤ 1
    split
    · assumption
    · exact zero_le_one

/-- Witness for C2 at `nx = ny = 1`, `row = col = 0`. -/
theorem bowl_heightmap_spec_witness :
    ((0:ℕ) < 1 ∧ (0:ℕ) < 1) ∧
    ((bowl_heightmap (1, 1)).rows = 1 ∧
     (bowl_heightmap (1, 1)).cols = 1 ∧
     (1 < Real.sqrt ((bowl_radius_sq (1, 1) 0 0 : ℚ) : ℝ) →
       (bowl_heightmap (1, 1)).val 0 0 = 0) ∧
     (Real.sqrt ((bowl_radius_sq (1, 1) 0 0 : ℚ) : ℝ) ≤ 1 →
       (bowl_heightmap (1, 1)).val 0 0 = bowl_radius_sq (1, 1) 0 0) ∧
     0 ≤ (bowl_heightmap (1, 1)).val 0 0 ∧
     (bowl_heightmap (1, 1)).val 0 0 ≤ 1) :=
  ⟨⟨Nat.one_pos, Nat.one_pos⟩,
   bowl_heightmap_spec 1 1 0 0 Nat.one_pos Nat.one_pos⟩

/-- C4: the call `flat_rugged(size, ruggedness=r)` returns a single heightmap
geometry whose heights array equals, elementwise, `r` times the rugged
primitive at `density=1.0` for the derived `num_edges`, and whose declared
vertical extent (size z component) equals `r`. -/
theorem flat_rugged_spec (pnoise2 : ℚ → ℚ → ℕ → ℚ) (sx sy r g : ℚ) :
    (flat_rugged pnoise2 (sx, sy) r g).static_geometry =
      [Geometry.hmap ⟨(0, 0, 0)⟩ 0 (sx, sy, r) (1/10)
        ((rugged_heightmap pnoise2 (sx, sy)
            (derivedNumEdges (sx, sy) g) 1).scale r) none] ∧
    (∀ i j : ℕ,
      (flat_rugged pnoise2 (sx, sy) r g).headGeo.heightAt i j =
        r * (rugged_heightmap pnoise2 (sx, sy)
          (derivedNumEdges (sx, sy) g) 1).val i j) ∧
    (flat_rugged pnoise2 (sx, sy) r g).headGeo.sizeZ = r :=
  ⟨rfl, fun i j => mul_comm _ r, rfl⟩

/-- C5: in `mixed_flat_rugged(size, ruggedness=r)`, every cell with column
index strictly below `num_edges[0] // 2` is exactly 0, and every other cell
equals `r` times the corresponding rugged-primitive cell (sharp transition
at the midpoint column). -/
theorem mixed_flat_rugged_spec (pnoise2 : ℚ → ℚ → ℕ → ℚ) (sx sy r g : ℚ)
    (i j : ℕ) :
    (mixed_flat_rugged pnoise2 (sx, sy) r g).headGeo.heightAt i j =
      if j < (derivedNumEdges (sx, sy) g).1 / 2 then 0
      else r * (rugged_heightmap pnoise2 (sx, sy)
        (derivedNumEdges (sx, sy) g) 1).val i j := by
  by_cases h : j < (derivedNumEdges (sx, sy) g).1 / 2
  · simp [mixed_flat_rugged, Terrain.headGeo, Geometry.heightAt,
      Heightmap.zeroCols, Heightmap.scale, h]
  · simp [mixed_flat_rugged, Terrain.headGeo, Geometry.heightAt,
      Heightmap.zeroCols, Heightmap.scale, h, mul_comm]

/-- C7: the call `crater(size, ruggedness=0, curviness=0)` takes the degenerate
guard branch: the heights array is `np.zeros(num_edges)` (all cells 0) and
the declared vertical extent is forced to 1; the normalizing division never
happens on this branch. -/
theorem crater_degenerate_spec (pnoise2 : ℚ → ℚ → ℕ → ℚ) (sx sy g : ℚ) :
    (crater pnoise2 (sx, sy) 0 0 g).static_geometry =
      [Geometry.hmap ⟨(0, 0, 0)⟩ 0 (sx, sy, 1) (1/10 + 0)
        (npZeros (derivedNumEdges (sx, sy) g)) none] ∧
    (∀ i j : ℕ, (crater pnoise2 (sx, sy) 0 0 g).headGeo.heightAt i j = 0) ∧
    (crater pnoise2 (sx, sy) 0 0 g).headGeo.sizeZ = 1 := by
  refine ⟨?_, ?_, ?_⟩ <;>
    simp [crater, Terrain.headGeo, Geometry.heightAt, Geometry.sizeZ, npZeros]

/-- C6: for `ruggedness + curviness > 0`, the heights array of `crater`
equals, elementwise,
`(ruggedness * rugged + curviness * bowl) / (ruggedness + curviness)` with
the rugged primitive at `density=1.5`; the geometry declares vertical
extent `ruggedness + curviness` and base thickness `0.1 + ruggedness`. -/
theorem crater_spec (pnoise2 : ℚ → ℚ → ℕ → ℚ) (sx sy r c g : ℚ)
    (hsum : 0 < r + c) :
    (∀ i j : ℕ,
      (crater pnoise2 (sx, sy) r c g).headGeo.heightAt i j =
        (r * (rugged_heightmap pnoise2 (sx, sy)
            (derivedNumEdges (sx, sy) g) (3/2)).val i j
          + c * (bowl_heightmap (derivedNumEdges (sx, sy) g)).val i j)
          / (r + c)) ∧
    (crater pnoise2 (sx, sy) r c g).headGeo.sizeZ = r + c ∧
    (crater pnoise2 (sx, sy) r c g).headGeo.baseThickness = 1/10 + r := by
  have hne : r + c ≠ 0 := ne_of_gt hsum
  refine ⟨fun i j => ?_, ?_, ?_⟩ <;>
    simp [crater, hne, Terrain.headGeo, Geometry.heightAt, Geometry.sizeZ,
      Geometry.baseThickness, Heightmap.smul, Heightmap.add,
      Heightmap.divScalar]

/-- Witness for C6 at `pnoise2 = const 0`, `size = (1, 1)`,
`ruggedness = curviness = 1`, `g = 1`. -/
theorem crater_spec_witness :
    (0:ℚ) < 1 + 1 ∧
    ((∀ i j : ℕ,
      (crater (fun _ _ _ => (0:ℚ)) ((1:ℚ), 1) 1 1 1).headGeo.heightAt i j =
        (1 * (rugged_heightmap (fun _ _ _ => (0:ℚ)) ((1:ℚ), 1)
            (derivedNumEdges ((1:ℚ), 1) 1) (3/2)).val i j
          + 1 * (bowl_heightmap (derivedNumEdges ((1:ℚ), 1) 1)).val i j)
          / (1 + 1)) ∧
    (crater (fun _ _ _ => (0:ℚ)) ((1:ℚ), 1) 1 1 1).headGeo.sizeZ = 1 + 1 ∧
    (crater (fun _ _ _ => (0:ℚ)) ((1:ℚ), 1) 1 1 1).headGeo.baseThickness
      = 1/10 + 1) :=
  ⟨by norm_num, crater_spec (fun _ _ _ => 0) 1 1 1 1 1 (by norm_num)⟩

/-- C8: every builder and primitive is deterministic: two calls with equal
arguments (and the same fixed noise function) return exactly equal
results. -/
theorem builders_deterministic (pnoise2 : ℚ → ℚ → ℕ → ℚ)
    (s s' : ℚ × ℚ) (r r' g g' c c' d d' : ℚ) (p p' : ℕ × ℕ)
    (hs : s = s') (hr : r = r') (hg : g = g') (hc : c = c') (hd : d = d')
    (hp : p = p') :
    flat s = flat s' ∧
    flat_rugged pnoise2 s r g = flat_rugged pnoise2 s' r' g' ∧
    mixed_terrain pnoise2 s r g = mixed_terrain pnoise2 s' r' g' ∧
    mixed_flat_rugged pnoise2 s r g = mixed_flat_rugged pnoise2 s' r' g' ∧
    mixed_flat_rugged_one_thirds pnoise2 s r g
      = mixed_flat_rugged_one_thirds pnoise2 s' r' g' ∧
    crater pnoise2 s r c g = crater pnoise2 s' r' c' g' ∧
    rugged_heightmap pnoise2 s p d = rugged_heightmap pnoise2 s' p' d' ∧
    bowl_heightmap p = bowl_heightmap p' := by
  subst hs hr hg hc hd hp
  exact ⟨rfl, rfl, rfl, rfl, rfl, rfl, rfl, rfl⟩

/-- Witness for C8 at concrete equal argument pairs. -/
theorem builders_deterministic_witness :
    flat ((1:ℚ), 1) = flat ((1:ℚ), 1) ∧
    flat_rugged (fun _ _ _ => (0:ℚ)) ((1:ℚ), 1) 1 1
      = flat_rugged (fun _ _ _ => (0:ℚ)) ((1:ℚ), 1) 1 1 ∧
    mixed_terrain (fun _ _ _ => (0:ℚ)) ((1:ℚ), 1) 1 1
      = mixed_terrain (fun _ _ _ => (0:ℚ)) ((1:ℚ), 1) 1 1 ∧
    mixed_flat_rugged (fun _ _ _ => (0:ℚ)) ((1:ℚ), 1) 1 1
      = mixed_flat_rugged (fun _ _ _ => (0:ℚ)) ((1:ℚ), 1) 1 1 ∧
    mixed_flat_rugged_one_thirds (fun _ _ _ => (0:ℚ)) ((1:ℚ), 1) 1 1
      = mixed_flat_rugged_one_thirds (fun _ _ _ => (0:ℚ)) ((1:ℚ), 1) 1 1 ∧
    crater (fun _ _ _ => (0:ℚ)) ((1:ℚ), 1) 1 1 1
      = crater (fun _ _ _ => (0:ℚ)) ((1:ℚ), 1) 1 1 1 ∧
    rugged_heightmap (fun _ _ _ => (0:ℚ)) ((1:ℚ), 1) (1, 1) 1
      = rugged_heightmap (fun _ _ _ => (0:ℚ)) ((1:ℚ), 1) (1, 1) 1 ∧
    bowl_heightmap (1, 1) = bowl_heightmap (1, 1) :=
  builders_deterministic (fun _ _ _ => 0) (1, 1) (1, 1) 1 1 1 1 1 1 1 1
    (1, 1) (1, 1) rfl rfl rfl rfl rfl rfl

/-- C9: for non-negative size and granularity multiplier, each composite
builder derives its grid resolution as
`num_edges[i] = floor(100 * size[i] * granularity_multiplier)`, and the
heights array of every geometry entry it returns has exactly that shape. -/
theorem num_edges_spec (pnoise2 : ℚ → ℚ → ℕ → ℚ) (sx sy r c g : ℚ)
    (hsx : 0 ≤ sx) (hsy : 0 ≤ sy) (hg : 0 ≤ g) :
    (((derivedNumEdges (sx, sy) g).1 : ℤ) = ⌊100 * sx * g⌋ ∧
     ((derivedNumEdges (sx, sy) g).2 : ℤ) = ⌊100 * sy * g⌋) ∧
    (flat_rugged pnoise2 (sx, sy) r g).heightsShapes
      = [derivedNumEdges (sx, sy) g] ∧
    (mixed_terrain pnoise2 (sx, sy) r g).heightsShapes
      = [derivedNumEdges (sx, sy) g, derivedNumEdges (sx, sy) g,
         derivedNumEdges (sx, sy) g] ∧
    (mixed_flat_rugged pnoise2 (sx, sy) r g).heightsShapes
      = [derivedNumEdges (sx, sy) g] ∧
    (mixed_flat_rugged_one_thirds pnoise2 (sx, sy) r g).heightsShapes
      = [derivedNumEdges (sx, sy) g] ∧
    (crater pnoise2 (sx, sy) r c g).heightsShapes
      = [derivedNumEdges (sx, sy) g] := by
  have h1 : (0:ℚ) ≤ 100 * sx * g := by positivity
  have h2 : (0:ℚ) ≤ 100 * sy * g := by positivity
  refine ⟨⟨?_, ?_⟩, ?_, ?_, ?_, ?_, ?_⟩
  · simp [derivedNumEdges, pyInt, if_pos h1,
      Int.toNat_of_nonneg (Int.floor_nonneg.mpr h1)]
  · simp [derivedNumEdges, pyInt, if_pos h2,
      Int.toNat_of_nonneg (Int.floor_nonneg.mpr h2)]
  · simp [flat_rugged, Terrain.heightsShapes, Geometry.heightsShape,
      Heightmap.scale, rugged_heightmap]
  · simp [mixed_terrain, Terrain.heightsShapes, Geometry.heightsShape,
      Heightmap.scale, Heightmap.zerosLike, rugged_heightmap]
  · simp [mixed_flat_rugged, Terrain.heightsShapes, Geometry.heightsShape,
      Heightmap.scale, Heightmap.zeroCols, rugged_heightmap]
  · simp [mixed_flat_rugged_one_thirds, Terrain.heightsShapes,
      Geometry.heightsShape, Heightmap.scale, Heightmap.zeroCols,
      rugged_heightmap]
  · by_cases h0 : r + c = 0 <;>
      simp [crater, h0, Terrain.heightsShapes, Geometry.heightsShape,
        Heightmap.smul, Heightmap.add, Heightmap.divScalar, npZeros,
        rugged_heightmap, bowl_heightmap]

/-- Witness for C9 at `size = (1, 1)`, `g = 1`. -/
theorem num_edges_spec_witness :
    ((0:ℚ) ≤ 1 ∧ (0:ℚ) ≤ 1 ∧ (0:ℚ) ≤ 1) ∧
    ((((derivedNumEdges ((1:ℚ), 1) 1).1 : ℤ) = ⌊(100:ℚ) * 1 * 1⌋ ∧
      ((derivedNumEdges ((1:ℚ), 1) 1).2 : ℤ) = ⌊(100:ℚ) * 1 * 1⌋) ∧
     (flat_rugged (fun _ _ _ => (0:ℚ)) ((1:ℚ), 1) 1 1).heightsShapes
       = [derivedNumEdges ((1:ℚ), 1) 1] ∧
     (mixed_terrain (fun _ _ _ => (0:ℚ)) ((1:ℚ), 1) 1 1).heightsShapes
       = [derivedNumEdges ((1:ℚ), 1) 1, derivedNumEdges ((1:ℚ), 1) 1,
          derivedNumEdges ((1:ℚ), 1) 1] ∧
     (mixed_flat_rugged (fun _ _ _ => (0:ℚ)) ((1:ℚ), 1) 1 1).heightsShapes
       = [derivedNumEdges ((1:ℚ), 1) 1] ∧
     (mixed_flat_rugged_one_thirds (fun _ _ _ => (0:ℚ))
         ((1:ℚ), 1) 1 1).heightsShapes
       = [derivedNumEdges ((1:ℚ), 1) 1] ∧
     (crater (fun _ _ _ => (0:ℚ)) ((1:ℚ), 1) 1 1 1).heightsShapes
       = [derivedNumEdges ((1:ℚ), 1) 1]) :=
  ⟨⟨by norm_num, by norm_num, by norm_num⟩,
   num_edges_spec (fun _ _ _ => 0) 1 1 1 1 1
     (by norm_num) (by norm_num) (by norm_num)⟩

/-- C10: every static geometry entry returned by any builder has mass
exactly 0 (the mass list of each returned terrain is all zeros). -/
theorem mass_zero_spec (pnoise2 : ℚ → ℚ → ℕ → ℚ) (s : ℚ × ℚ)
    (r c g : ℚ) :
    (flat s).masses = [0] ∧
    (flat_rugged pnoise2 s r g).masses = [0] ∧
    (mixed_terrain pnoise2 s r g).masses = [0, 0, 0] ∧
    (mixed_flat_rugged pnoise2 s r g).masses = [0] ∧
    (mixed_flat_rugged_one_thirds pnoise2 s r g).masses = [0] ∧
    (crater pnoise2 s r c g).masses = [0] := by
  refine ⟨rfl, rfl, rfl, rfl, rfl, ?_⟩
  by_cases h : r + c = 0 <;> simp [crater, h, Terrain.masses, Geometry.mass]

/-- C3 counterexample: `crater` violates the claimed invariant that every
height lies within the declared vertical extent.  With the noise function
constantly 0, `size = (1/50, 1/50)` (so `num_edges = (2, 2)`),
`ruggedness = 0` and `curviness = 1/2`, the heightmap equals the bowl
primitive, whose cell `(0, 1)` is 1, while the declared extent
(`max_height = ruggedness + curviness`) is `1/2 < 1`. -/
theorem crater_extent_violation :
    ∃ geo ∈ (crater (fun _ _ _ => (0:ℚ))
        ((1:ℚ)/50, 1/50) 0 (1/2) 1).static_geometry,
      geo.sizeZ < |geo.heightAt 0 1| := by
  have hne : (0:ℚ) + 1/2 ≠ 0 := by norm_num
  have h2 : derivedNumEdges ((1:ℚ)/50, 1/50) 1 = (2, 2) := by
    norm_num [derivedNumEdges, pyInt]
    decide
  refine ⟨(crater (fun _ _ _ => (0:ℚ))
      ((1:ℚ)/50, 1/50) 0 (1/2) 1).headGeo, ?_, ?_⟩
  · simp [crater, Terrain.headGeo, hne]
  · simp only [crater, Terrain.headGeo, hne, if_neg, h2, List.headD_cons,
      Geometry.sizeZ, Geometry.heightAt, Heightmap.divScalar, Heightmap.add,
      Heightmap.smul, bowl_heightmap, bowl_radius_sq]
    norm_num

/-- C3 amended: for the scaling builders `flat_rugged`, `mixed_terrain`,
`mixed_flat_rugged` and `mixed_flat_rugged_one_thirds`, if the noise values
are bounded by 1 in absolute value and `ruggedness` is non-negative, every
height of every returned geometry entry lies within the declared vertical
extent of that entry.  `crater` is excluded: it violates the invariant
(see the C3 counterexample above). -/
theorem heights_within_extent (pnoise2 : ℚ → ℚ → ℕ → ℚ)
    (hpn : ∀ a b o, |pnoise2 a b o| ≤ 1) (sx sy r g : ℚ) (hr : 0 ≤ r) :
    (∀ geo ∈ (flat_rugged pnoise2 (sx, sy) r g).static_geometry,
      ∀ i j : ℕ, |geo.heightAt i j| ≤ geo.sizeZ) ∧
    (∀ geo ∈ (mixed_terrain pnoise2 (sx, sy) r g).static_geometry,
      ∀ i j : ℕ, |geo.heightAt i j| ≤ geo.sizeZ) ∧
    (∀ geo ∈ (mixed_flat_rugged pnoise2 (sx, sy) r g).static_geometry,
      ∀ i j : ℕ, |geo.heightAt i j| ≤ geo.sizeZ) ∧
    (∀ geo ∈ (mixed_flat_rugged_one_thirds pnoise2
        (sx, sy) r g).static_geometry,
      ∀ i j : ℕ, |geo.heightAt i j| ≤ geo.sizeZ) := by
  have key : ∀ v : ℚ, |v| ≤ 1 → |v * r| ≤ r := by
    intro v hv
    rw [abs_mul, abs_of_nonneg hr]
    calc |v| * r ≤ 1 * r := mul_le_mul_of_nonneg_right hv hr
      _ = r := one_mul r
  have hz : |(0:ℚ)| ≤ r := by rw [abs_zero]; exact hr
  refine ⟨?_, ?_, ?_, ?_⟩
  · intro geo hgeo i j
    simp only [flat_rugged, List.mem_singleton] at hgeo
    subst hgeo
    exact key _ (hpn _ _ _)
  · intro geo hgeo i j
    simp only [mixed_terrain, List.mem_cons, List.mem_singleton,
      List.not_mem_nil, or_false] at hgeo
    rcases hgeo with h | h | h <;> subst h
    · exact hz
    · exact hz
    · exact key _ (hpn _ _ _)
  · intro geo hgeo i j
    simp only [mixed_flat_rugged, List.mem_singleton] at hgeo
    subst hgeo
    show |(if j < (derivedNumEdges (sx, sy) g).1 / 2 then 0
      else (rugged_heightmap pnoise2 (sx, sy)
        (derivedNumEdges (sx, sy) g) 1).val i j * r)| ≤ r
    split
    · exact hz
    · exact key _ (hpn _ _ _)
  · intro geo hgeo i j
    simp only [mixed_flat_rugged_one_thirds, List.mem_singleton] at hgeo
    subst hgeo
    show |(if j < (derivedNumEdges (sx, sy) g).1 * 2 / 3 then 0
      else (rugged_heightmap pnoise2 (sx, sy)
        (derivedNumEdges (sx, sy) g) 1).val i j * r)| ≤ r
    split
    · exact hz
    · exact key _ (hpn _ _ _)

/-- Witness for the amended C3 at `pnoise2 = const 0`, `size = (1, 1)`,
`ruggedness = 1`, `g = 1`. -/
theorem heights_within_extent_witness :
    (∀ a b o : ℕ, |(fun _ _ _ => (0:ℚ)) a b o| ≤ 1) ∧ (0:ℚ) ≤ 1 ∧
    ((∀ geo ∈ (flat_rugged (fun _ _ _ => (0:ℚ))
        ((1:ℚ), 1) 1 1).static_geometry,
      ∀ i j : ℕ, |geo.heightAt i j| ≤ geo.sizeZ) ∧
    (∀ geo ∈ (mixed_terrain (fun _ _ _ => (0:ℚ))
        ((1:ℚ), 1) 1 1).static_geometry,
      ∀ i j : ℕ, |geo.heightAt i j| ≤ geo.sizeZ) ∧
    (∀ geo ∈ (mixed_flat_rugged (fun _ _ _ => (0:ℚ))
        ((1:ℚ), 1) 1 1).static_geometry,
      ∀ i j : ℕ, |geo.heightAt i j| ≤ geo.sizeZ) ∧
    (∀ geo ∈ (mixed_flat_rugged_one_thirds (fun _ _ _ => (0:ℚ))
        ((1:ℚ), 1) 1 1).static_geometry,
      ∀ i j : ℕ, |geo.heightAt i j| ≤ geo.sizeZ)) :=
  ⟨fun _ _ _ => by norm_num, by norm_num,
   heights_within_extent (fun _ _ _ => 0) (fun _ _ _ => by norm_num)
     1 1 1 1 (by norm_num)⟩
